import Mathlib

/-!
A shallow embedding of the SSE connection registry and event-delivery engine
(the `SSEService` class of the TypeScript source) together with proofs of its
specification properties.  Stream handles are opaque in the source; their
write/close behaviour is modelled here by explicit outcome parameters, and
`Date.now()` / `randomUUID()` are passed in as explicit arguments.
-/

namespace SSEModel

/-- An outbound SSE event (`SSEEvent<T>` in the source): optional wire id,
event name, payload of type `T` (serialised at send time by `JSON.stringify`,
modelled as an explicit `stringify` function), optional retry hint (ms). -/
structure SSEEvent (T : Type) where
  id : Option String
  event : String
  data : T
  retry : Option Nat
deriving Repr, DecidableEq

/-- JavaScript truthiness of an optional string (`if (x)` where
`x : string | undefined`): false for `undefined` and for the empty string. -/
def truthyStr : Option String → Bool
  | none => false
  | some s => !(s == "")

/-- JavaScript truthiness of an optional number (`if (x)` where
`x : number | undefined`): false for `undefined` and for `0`. -/
def truthyNat : Option Nat → Bool
  | none => false
  | some n => !(n == 0)

/-- `lines.join("\n")` on a JavaScript array of strings. -/
def joinNewline : List String → String
  | [] => ""
  | [a] => a
  | a :: b :: rest => a ++ "\n" ++ joinNewline (b :: rest)

/-- `SSEService.formatSSEMessage`: build the `lines` array (conditionally
including the `id:` and `retry:` lines under JS truthiness), join with
newlines, and append the terminating blank line. -/
def formatSSEMessage {T : Type} (stringify : T → String) (e : SSEEvent T) : String :=
  let lines : List String :=
    (if truthyStr e.id then ["id: " ++ e.id.getD ""] else []) ++
    ["event: " ++ e.event, "data: " ++ stringify e.data] ++
    (if truthyNat e.retry then ["retry: " ++ toString (e.retry.getD 0)] else [])
  joinNewline lines ++ "\n\n"

lemma nl_nl : ("\n\n" : String) = "\n" ++ "\n" := rfl

/-- C1: the encoder produces exactly the wire grammar — an `id:` line only
when `event.id` is (truthily) present, then the `event:` line, then the
`data:` line, then a `retry:` line only when (truthily) present, terminated
by exactly one trailing blank line; in particular the event
`{id:"42", event:"update", data:{"a":1}, retry:3000}` encodes to exactly
`id: 42\nevent: update\ndata: {"a":1}\nretry: 3000\n\n`, and an event with
no id and no retry omits those lines entirely. -/
theorem formatSSEMessage_wire_grammar :
    (∀ (T : Type) (stringify : T → String) (e : SSEEvent T),
      formatSSEMessage stringify e =
        (match e.id with
         | some i => if i = "" then "" else "id: " ++ i ++ "\n"
         | none => "") ++
        ("event: " ++ e.event ++ "\n") ++
        ("data: " ++ stringify e.data ++ "\n") ++
        (match e.retry with
         | some r => if r = 0 then "" else "retry: " ++ toString r ++ "\n"
         | none => "") ++
        "\n") ∧
    formatSSEMessage (fun s => s)
        { id := some "42", event := "update", data := "\x7b\"a\":1\x7d",
          retry := some 3000 } =
      "id: 42\nevent: update\ndata: \x7b\"a\":1\x7d\nretry: 3000\n\n" ∧
    formatSSEMessage (fun s => s)
        { id := none, event := "update", data := "\x7b\"a\":1\x7d",
          retry := none } =
      "event: update\ndata: \x7b\"a\":1\x7d\n\n" := by
  refine ⟨?_, by decide, by decide⟩
  intro T stringify e
  rcases e with ⟨eid, ev, d, r⟩
  rcases eid with _ | i
  · rcases r with _ | n
    · simp [formatSSEMessage, truthyStr, truthyNat, joinNewline, nl_nl,
        String.append_assoc]
    · by_cases hn : n = 0 <;>
        simp [formatSSEMessage, truthyStr, truthyNat, joinNewline, hn, nl_nl,
          String.append_assoc]
  · rcases r with _ | n
    · by_cases hi : i = "" <;>
        simp [formatSSEMessage, truthyStr, truthyNat, joinNewline, hi, nl_nl,
          String.append_assoc]
    · by_cases hi : i = "" <;> by_cases hn : n = 0 <;>
        simp [formatSSEMessage, truthyStr, truthyNat, joinNewline, hi, hn, nl_nl,
          String.append_assoc]

/-! ## The connection registry (`SSEService` state and operations)

The stream handle stored per client (`response` in the source) is opaque:
the service only writes encoded bytes to it and closes it.  Its behaviour is
modelled by `WriteOutcome` / `closeThrows` parameters supplied at each call
that touches the stream. -/

/-- A registered client (`SSEClient` in the source, minus the opaque stream
handle). `lastPing` and `connectedAt` are `Date.now()` timestamps (ms). -/
structure SSEClient where
  id : String
  userId : Option String
  lastPing : Nat
  connectedAt : Nat
deriving Repr, DecidableEq

/-- `SSEServiceConfig` with the defaults applied by the constructor. -/
structure SSEServiceConfig where
  heartbeatInterval : Nat := 30000
  clientTimeout : Nat := 90000
  reconnectDelay : Nat := 2000
  maxClients : Nat := 1000
deriving Repr, DecidableEq

/-- The mutable state of an `SSEService` instance: the `clients` map (a JS
`Map`, kept in insertion order; the key of each entry is the client's `id`),
the heartbeat timer (modelled as active or cancelled), the `isShuttingDown`
flag, and the resolved config. -/
structure SSEState where
  clients : List SSEClient
  heartbeatActive : Bool
  isShuttingDown : Bool
  config : SSEServiceConfig
deriving Repr, DecidableEq

/-- State of a freshly constructed service: empty map, heartbeat started,
not shutting down. -/
def initialState (cfg : SSEServiceConfig) : SSEState :=
  { clients := [], heartbeatActive := true, isShuttingDown := false, config := cfg }

/-- Errors thrown by `addClient`. -/
inductive SSEError where
  | shuttingDown
  | maxClientsReached
deriving Repr, DecidableEq

/-- `Map.set` on the clients map: replace in place if the key exists,
otherwise append in insertion order. -/
def mapSet (l : List SSEClient) (c : SSEClient) : List SSEClient :=
  if l.any (fun x => x.id == c.id) then
    l.map (fun x => if x.id == c.id then c else x)
  else l ++ [c]

/-- The client record stored by `addClient`:
`connectedAt = lastPing = Date.now()`. -/
def mkClient (freshId : String) (userId : Option String) (now : Nat) : SSEClient :=
  { id := freshId, userId := userId, lastPing := now, connectedAt := now }

/-- `SSEService.addClient`: throw if shutting down, throw if the map already
holds `maxClients` entries, otherwise store a new client under a fresh id
(from `randomUUID()`, passed in as `freshId`) and return the id.  The
`setTimeout`-deferred `connected` welcome event is an asynchronous later
`sendToClient` call and is not part of this synchronous state transition. -/
def addClient (s : SSEState) (freshId : String) (userId : Option String) (now : Nat) :
    SSEState × Except SSEError String :=
  if s.isShuttingDown then (s, .error .shuttingDown)
  else if s.config.maxClients ≤ s.clients.length then (s, .error .maxClientsReached)
  else ({ s with clients := mapSet s.clients (mkClient freshId userId now) }, .ok freshId)

/-- `this.clients.get(clientId)`. -/
def findClient (s : SSEState) (cid : String) : Option SSEClient :=
  s.clients.find? (fun x => x.id == cid)

/-- `SSEService.removeClient`: return false if the id is unknown; otherwise
close the stream handle (a throwing close — `closeThrows` — is caught and
only logged), delete the entry, and return true. -/
def removeClient (s : SSEState) (closeThrows : Bool) (cid : String) : SSEState × Bool :=
  match findClient s cid with
  | none => (s, false)
  | some _ => ({ s with clients := s.clients.filter (fun x => !(x.id == cid)) }, true)

/-- `SSEService.getActiveClients`: the keys of the clients map. -/
def getActiveClients (s : SSEState) : List String :=
  s.clients.map (fun x => x.id)

/-- Outcome of one attempted stream write in `sendToClient`: the controller
reports itself closed (`desiredSize === null`), `enqueue` throws, or the
write succeeds. -/
inductive WriteOutcome where
  | closedController
  | enqueueThrows
  | ok
deriving Repr, DecidableEq

/-- `client.lastPing = Date.now()` after a successful write. -/
def touchClient (s : SSEState) (cid : String) (now : Nat) : SSEState :=
  let upd := s.clients.map (fun x => if x.id == cid then { x with lastPing := now } else x)
  { s with clients := upd }

/-- `SSEService.sendToClient`: return false if the id is unknown; otherwise
format the event and write it.  A closed controller or a throwing `enqueue`
leads to `removeClient` and false (the catch swallows the error); on success
the client's `lastPing` is updated and true is returned. -/
def sendToClient (s : SSEState) (cid : String) (e : SSEEvent String)
    (outcome : WriteOutcome) (closeThrows : Bool) (now : Nat) : SSEState × Bool :=
  match findClient s cid with
  | none => (s, false)
  | some _ =>
    match outcome with
    | .closedController => ((removeClient s closeThrows cid).1, false)
    | .enqueueThrows => ((removeClient s closeThrows cid).1, false)
    | .ok => (touchClient s cid now, true)

/-! ## Basic lemmas about the registry operations -/

lemma map_id_filter_ne (l : List SSEClient) (cid : String) :
    (l.filter (fun x => !(x.id == cid))).map (fun x => x.id) =
      (l.map (fun x => x.id)).filter (fun x => !(x == cid)) := by
  induction l with
  | nil => rfl
  | cons c t ih =>
    by_cases h : c.id = cid <;> simp [h, ih]

lemma getActiveClients_removeClient (s : SSEState) (ct : Bool) (cid : String) :
    getActiveClients (removeClient s ct cid).1 =
      (getActiveClients s).filter (fun x => !(x == cid)) := by
  unfold removeClient findClient
  cases hf : s.clients.find? (fun x => x.id == cid) with
  | none =>
    rw [List.find?_eq_none] at hf
    simp only [getActiveClients]
    rw [eq_comm, List.filter_eq_self]
    intro x hx
    rcases List.mem_map.mp hx with ⟨c, hc, rfl⟩
    simpa using hf c hc
  | some c =>
    simp [getActiveClients, map_id_filter_ne]

lemma not_mem_getActiveClients_removeClient (s : SSEState) (ct : Bool) (cid : String) :
    cid ∉ getActiveClients (removeClient s ct cid).1 := by
  rw [getActiveClients_removeClient]
  intro h
  simpa using (List.mem_filter.mp h).2

lemma mem_getActiveClients_removeClient (s : SSEState) (ct : Bool) (cid x : String)
    (h : x ∈ getActiveClients (removeClient s ct cid).1) : x ∈ getActiveClients s := by
  rw [getActiveClients_removeClient] at h
  exact (List.mem_filter.mp h).1

lemma getActiveClients_touchClient (s : SSEState) (cid : String) (now : Nat) :
    getActiveClients (touchClient s cid now) = getActiveClients s := by
  simp only [getActiveClients, touchClient, List.map_map]
  congr 1
  funext x
  by_cases h : x.id = cid <;> simp [h]

lemma mem_getActiveClients_iff (s : SSEState) (x : String) :
    x ∈ getActiveClients s ↔ (findClient s x).isSome := by
  simp [getActiveClients, findClient, List.find?_isSome, List.mem_map]

lemma removeClient_of_not_found (s : SSEState) (ct : Bool) (cid : String)
    (hf : findClient s cid = none) : removeClient s ct cid = (s, false) := by
  simp [removeClient, hf]

lemma removeClient_of_found (s : SSEState) (ct : Bool) (cid : String) (c : SSEClient)
    (hf : findClient s cid = some c) :
    removeClient s ct cid =
      ({ s with clients := s.clients.filter (fun x => !(x.id == cid)) }, true) := by
  simp [removeClient, hf]

/-- C2: registering on a (live) registry already holding `maxClients` or
more connections fails with the capacity error and leaves the state — in
particular the connection count — unchanged. -/
theorem addClient_at_capacity_rejected (s : SSEState) (fid : String)
    (uid : Option String) (now : Nat)
    (hlive : s.isShuttingDown = false)
    (hfull : s.config.maxClients ≤ s.clients.length) :
    addClient s fid uid now = (s, .error .maxClientsReached) := by
  simp [addClient, hlive, hfull]

theorem addClient_at_capacity_rejected_witness :
    (initialState { maxClients := 0 }).isShuttingDown = false ∧
    (initialState { maxClients := 0 }).config.maxClients ≤
      (initialState { maxClients := 0 }).clients.length ∧
    addClient (initialState { maxClients := 0 }) "c1" none 5 =
      (initialState { maxClients := 0 }, .error .maxClientsReached) :=
  ⟨rfl, Nat.le_refl 0,
    addClient_at_capacity_rejected (initialState { maxClients := 0 }) "c1" none 5
      rfl (Nat.le_refl 0)⟩

/-- C3: removing an unknown id returns false and is a no-op; removing a
registered id returns true and deletes the entry; a close error is swallowed
(the result does not depend on whether close throws); and a second removal
of the same id always returns false and changes nothing. -/
theorem removeClient_spec (s : SSEState) (ct ctAlt : Bool) (cid : String) :
    (cid ∉ getActiveClients s → removeClient s ct cid = (s, false)) ∧
    (cid ∈ getActiveClients s →
      (removeClient s ct cid).2 = true ∧
      cid ∉ getActiveClients (removeClient s ct cid).1) ∧
    removeClient s ct cid = removeClient s ctAlt cid ∧
    removeClient (removeClient s ct cid).1 ctAlt cid =
      ((removeClient s ct cid).1, false) := by
  refine ⟨?_, ?_, rfl, ?_⟩
  · intro h
    rw [mem_getActiveClients_iff] at h
    cases hf : findClient s cid with
    | none => exact removeClient_of_not_found s ct cid hf
    | some c => rw [hf] at h; simp at h
  · intro h
    rw [mem_getActiveClients_iff] at h
    refine ⟨?_, not_mem_getActiveClients_removeClient s ct cid⟩
    cases hf : findClient s cid with
    | none => rw [hf] at h; simp at h
    | some c => rw [removeClient_of_found s ct cid c hf]
  · have h2 : cid ∉ getActiveClients (removeClient s ct cid).1 :=
      not_mem_getActiveClients_removeClient s ct cid
    rw [mem_getActiveClients_iff] at h2
    cases hf : findClient (removeClient s ct cid).1 cid with
    | none => exact removeClient_of_not_found _ ctAlt cid hf
    | some c => rw [hf] at h2; simp at h2

def stateOne : SSEState :=
  { clients := [{ id := "a", userId := none, lastPing := 0, connectedAt := 0 }],
    heartbeatActive := true, isShuttingDown := false, config := {} }

theorem removeClient_spec_witness :
    ("a" ∈ getActiveClients stateOne) ∧
    ((removeClient stateOne true "a").2 = true ∧
      "a" ∉ getActiveClients (removeClient stateOne true "a").1) :=
  ⟨by decide, (removeClient_spec stateOne true false "a").2.1 (by decide)⟩

lemma sendToClient_of_not_found (s : SSEState) (cid : String) (e : SSEEvent String)
    (oc : WriteOutcome) (ct : Bool) (now : Nat) (hf : findClient s cid = none) :
    sendToClient s cid e oc ct now = (s, false) := by
  simp [sendToClient, hf]

lemma sendToClient_of_found_fail (s : SSEState) (cid : String) (e : SSEEvent String)
    (oc : WriteOutcome) (ct : Bool) (now : Nat) (c : SSEClient)
    (hf : findClient s cid = some c) (hoc : oc ≠ .ok) :
    sendToClient s cid e oc ct now = ((removeClient s ct cid).1, false) := by
  cases oc with
  | closedController => simp [sendToClient, hf]
  | enqueueThrows => simp [sendToClient, hf]
  | ok => exact absurd rfl hoc

lemma sendToClient_of_found_ok (s : SSEState) (cid : String) (e : SSEEvent String)
    (ct : Bool) (now : Nat) (c : SSEClient) (hf : findClient s cid = some c) :
    sendToClient s cid e .ok ct now = (touchClient s cid now, true) := by
  simp [sendToClient, hf]

lemma mem_getActiveClients_sendToClient (s : SSEState) (cid : String) (e : SSEEvent String)
    (oc : WriteOutcome) (ct : Bool) (now : Nat) (x : String)
    (h : x ∈ getActiveClients (sendToClient s cid e oc ct now).1) :
    x ∈ getActiveClients s := by
  cases hf : findClient s cid with
  | none => rwa [sendToClient_of_not_found s cid e oc ct now hf] at h
  | some c =>
    cases oc with
    | ok =>
      rw [sendToClient_of_found_ok s cid e ct now c hf] at h
      rwa [getActiveClients_touchClient] at h
    | closedController =>
      rw [sendToClient_of_found_fail s cid e _ ct now c hf (by simp)] at h
      exact mem_getActiveClients_removeClient s ct cid x h
    | enqueueThrows =>
      rw [sendToClient_of_found_fail s cid e _ ct now c hf (by simp)] at h
      exact mem_getActiveClients_removeClient s ct cid x h

/-- C4: for a registered connection, a failing write (closed controller or
throwing enqueue) makes `sendToClient` delegate to `removeClient` on that id
and return false, after which `getActiveClients` no longer contains the id;
a successful write returns true and updates the connection's `lastPing` to
the current time. -/
theorem sendToClient_failure_evicts (s : SSEState) (cid : String) (e : SSEEvent String)
    (oc : WriteOutcome) (ct : Bool) (now : Nat)
    (hmem : cid ∈ getActiveClients s) :
    (oc ≠ .ok →
      sendToClient s cid e oc ct now = ((removeClient s ct cid).1, false) ∧
      cid ∉ getActiveClients (sendToClient s cid e oc ct now).1) ∧
    (oc = .ok →
      (sendToClient s cid e oc ct now).2 = true ∧
      ∀ c ∈ (sendToClient s cid e oc ct now).1.clients, c.id = cid → c.lastPing = now) := by
  rw [mem_getActiveClients_iff] at hmem
  cases hf : findClient s cid with
  | none => rw [hf] at hmem; simp at hmem
  | some c =>
    constructor
    · intro hoc
      have heq := sendToClient_of_found_fail s cid e oc ct now c hf hoc
      refine ⟨heq, ?_⟩
      rw [heq]
      exact not_mem_getActiveClients_removeClient s ct cid
    · rintro rfl
      rw [sendToClient_of_found_ok s cid e ct now c hf]
      refine ⟨rfl, ?_⟩
      intro x hx hid
      simp only [touchClient, List.mem_map] at hx
      rcases hx with ⟨y, hy, rfl⟩
      by_cases h : y.id = cid
      · simp [h]
      · simp only [beq_iff_eq, h, if_neg] at hid ⊢
        exact absurd hid h

def eventW : SSEEvent String :=
  { id := none, event := "update", data := "payload", retry := none }

theorem sendToClient_failure_evicts_witness :
    ("a" ∈ getActiveClients stateOne) ∧ (WriteOutcome.enqueueThrows ≠ .ok) ∧
    (sendToClient stateOne "a" eventW .enqueueThrows false 7 =
        ((removeClient stateOne false "a").1, false) ∧
      "a" ∉ getActiveClients (sendToClient stateOne "a" eventW .enqueueThrows false 7).1) :=
  ⟨by decide, by decide,
    (sendToClient_failure_evicts stateOne "a" eventW .enqueueThrows false 7
      (by decide)).1 (by decide)⟩

/-! ## Locality: operations keyed by one id leave other entries untouched -/

lemma find?_filter_ne (l : List SSEClient) (x cid : String) (h : x ≠ cid) :
    (l.filter (fun c => !(c.id == cid))).find? (fun c => c.id == x) =
      l.find? (fun c => c.id == x) := by
  induction l with
  | nil => rfl
  | cons c t ih =>
    by_cases hc : c.id = cid
    · have hpx : ¬((c.id == x) = true) := by
        simp only [beq_iff_eq, hc]
        exact fun he => h he.symm
      rw [List.filter_cons_of_neg (by simp [hc]), List.find?_cons_of_neg t hpx, ih]
    · rw [List.filter_cons_of_pos (by simp [hc])]
      by_cases hcx : c.id = x
      · rw [List.find?_cons_of_pos _ (by simp [hcx]),
          List.find?_cons_of_pos _ (by simp [hcx])]
      · rw [List.find?_cons_of_neg _ (by simp [hcx]),
          List.find?_cons_of_neg _ (by simp [hcx]), ih]

lemma findClient_removeClient_ne (s : SSEState) (ct : Bool) (cid x : String)
    (h : x ≠ cid) : findClient (removeClient s ct cid).1 x = findClient s x := by
  cases hf : findClient s cid with
  | none => rw [removeClient_of_not_found s ct cid hf]
  | some c =>
    rw [removeClient_of_found s ct cid c hf]
    exact find?_filter_ne s.clients x cid h

lemma find?_map_touch (l : List SSEClient) (x cid : String) (now : Nat) (h : x ≠ cid) :
    (l.map (fun c => if c.id == cid then { c with lastPing := now } else c)).find?
        (fun c => c.id == x) =
      l.find? (fun c => c.id == x) := by
  induction l with
  | nil => rfl
  | cons c t ih =>
    rw [List.map_cons]
    by_cases hc : c.id = cid
    · have hpx : ¬((c.id == x) = true) := by
        simp only [beq_iff_eq, hc]
        exact fun he => h he.symm
      rw [if_pos (by simp [hc])]
      rw [List.find?_cons_of_neg _ (by simpa using hpx), List.find?_cons_of_neg t hpx, ih]
    · rw [if_neg (by simp [hc])]
      by_cases hcx : c.id = x
      · rw [List.find?_cons_of_pos _ (by simp [hcx]),
          List.find?_cons_of_pos _ (by simp [hcx])]
      · rw [List.find?_cons_of_neg _ (by simp [hcx]),
          List.find?_cons_of_neg _ (by simp [hcx]), ih]

lemma findClient_touchClient_ne (s : SSEState) (cid x : String) (now : Nat)
    (h : x ≠ cid) : findClient (touchClient s cid now) x = findClient s x := by
  simpa [findClient, touchClient] using find?_map_touch s.clients x cid now h

lemma findClient_sendToClient_ne (s : SSEState) (cid x : String) (e : SSEEvent String)
    (oc : WriteOutcome) (ct : Bool) (now : Nat) (h : x ≠ cid) :
    findClient (sendToClient s cid e oc ct now).1 x = findClient s x := by
  cases hf : findClient s cid with
  | none => rw [sendToClient_of_not_found s cid e oc ct now hf]
  | some c =>
    cases oc with
    | ok =>
      rw [sendToClient_of_found_ok s cid e ct now c hf]
      exact findClient_touchClient_ne s cid x now h
    | closedController =>
      rw [sendToClient_of_found_fail s cid e _ ct now c hf (by simp)]
      exact findClient_removeClient_ne s ct cid x h
    | enqueueThrows =>
      rw [sendToClient_of_found_fail s cid e _ ct now c hf (by simp)]
      exact findClient_removeClient_ne s ct cid x h

lemma config_removeClient (s : SSEState) (ct : Bool) (cid : String) :
    (removeClient s ct cid).1.config = s.config ∧
    (removeClient s ct cid).1.isShuttingDown = s.isShuttingDown ∧
    (removeClient s ct cid).1.heartbeatActive = s.heartbeatActive := by
  cases hf : findClient s cid with
  | none => rw [removeClient_of_not_found s ct cid hf]; exact ⟨rfl, rfl, rfl⟩
  | some c => rw [removeClient_of_found s ct cid c hf]; exact ⟨rfl, rfl, rfl⟩

lemma config_sendToClient (s : SSEState) (cid : String) (e : SSEEvent String)
    (oc : WriteOutcome) (ct : Bool) (now : Nat) :
    (sendToClient s cid e oc ct now).1.config = s.config ∧
    (sendToClient s cid e oc ct now).1.isShuttingDown = s.isShuttingDown ∧
    (sendToClient s cid e oc ct now).1.heartbeatActive = s.heartbeatActive := by
  cases hf : findClient s cid with
  | none => rw [sendToClient_of_not_found s cid e oc ct now hf]; exact ⟨rfl, rfl, rfl⟩
  | some c =>
    cases oc with
    | ok => rw [sendToClient_of_found_ok s cid e ct now c hf]; exact ⟨rfl, rfl, rfl⟩
    | closedController =>
      rw [sendToClient_of_found_fail s cid e _ ct now c hf (by simp)]
      exact config_removeClient s ct cid
    | enqueueThrows =>
      rw [sendToClient_of_found_fail s cid e _ ct now c hf (by simp)]
      exact config_removeClient s ct cid

/-! ## The heartbeat tick (`SSEService.startHeartbeat` callback) -/

/-- The `ping` event sent by a heartbeat tick, carrying the current
timestamp (payload `{timestamp, serverTime}` serialised by `JSON.stringify`,
with the server time string passed in). -/
def pingEvent (now : Nat) (serverTime : String) : SSEEvent String :=
  { id := none, event := "ping",
    data := "\x7b\"timestamp\":" ++ toString now ++ ",\"serverTime\":\"" ++
      serverTime ++ "\"\x7d",
    retry := none }

/-- One iteration of the heartbeat loop for the snapshot client `c`: if the
idle time exceeds the timeout, mark `c` stale and continue (no send);
otherwise send a ping (`const sent = sendToClient(...)`; written out here by
substituting the call), marking `c` stale when the send failed.  The
accumulator carries the evolving state, the `staleClients` array and the
list of attempted sends (client id, event sent). -/
def tickStep (timeout now : Nat) (serverTime : String) (outcomes : String → WriteOutcome)
    (acc : SSEState × List String × List (String × SSEEvent String)) (c : SSEClient) :
    SSEState × List String × List (String × SSEEvent String) :=
  if timeout < now - c.lastPing then
    (acc.1, acc.2.1 ++ [c.id], acc.2.2)
  else if (sendToClient acc.1 c.id (pingEvent now serverTime) (outcomes c.id) false now).2 then
    ((sendToClient acc.1 c.id (pingEvent now serverTime) (outcomes c.id) false now).1,
      acc.2.1, acc.2.2 ++ [(c.id, pingEvent now serverTime)])
  else
    ((sendToClient acc.1 c.id (pingEvent now serverTime) (outcomes c.id) false now).1,
      acc.2.1 ++ [c.id], acc.2.2 ++ [(c.id, pingEvent now serverTime)])

/-- The `staleClients.forEach(clientId => removeClient(clientId))` pass at
the end of a tick. -/
def removeStale (st : SSEState) (ids : List String) : SSEState :=
  ids.foldl (fun t cid => (removeClient t false cid).1) st

/-- One firing of the heartbeat interval callback: return immediately when
shutting down; otherwise iterate the clients (collecting stale ids and
sending pings), then remove every collected stale client.  Returns the new
state and the list of attempted ping sends. -/
def heartbeatTick (s : SSEState) (now : Nat) (serverTime : String)
    (outcomes : String → WriteOutcome) : SSEState × List (String × SSEEvent String) :=
  if s.isShuttingDown then (s, [])
  else
    let r := s.clients.foldl (tickStep s.config.clientTimeout now serverTime outcomes)
      (s, [], [])
    (removeStale r.1 r.2.1, r.2.2)

lemma heartbeatTick_eq (s : SSEState) (now : Nat) (srvTime : String)
    (oc : String → WriteOutcome) (hlive : s.isShuttingDown = false) :
    heartbeatTick s now srvTime oc =
      (removeStale
          (s.clients.foldl (tickStep s.config.clientTimeout now srvTime oc) (s, [], [])).1
          (s.clients.foldl (tickStep s.config.clientTimeout now srvTime oc) (s, [], [])).2.1,
        (s.clients.foldl (tickStep s.config.clientTimeout now srvTime oc) (s, [], [])).2.2) := by
  unfold heartbeatTick
  rw [if_neg (by simp [hlive])]

lemma tickStep_stale {timeout now : Nat} {srvTime : String} {oc : String → WriteOutcome}
    (acc : SSEState × List String × List (String × SSEEvent String)) (c : SSEClient)
    (ht : timeout < now - c.lastPing) :
    tickStep timeout now srvTime oc acc c = (acc.1, acc.2.1 ++ [c.id], acc.2.2) := by
  unfold tickStep
  rw [if_pos ht]

lemma tickStep_fresh_state {timeout now : Nat} {srvTime : String} {oc : String → WriteOutcome}
    (acc : SSEState × List String × List (String × SSEEvent String)) (c : SSEClient)
    (ht : ¬ timeout < now - c.lastPing) :
    (tickStep timeout now srvTime oc acc c).1 =
      (sendToClient acc.1 c.id (pingEvent now srvTime) (oc c.id) false now).1 := by
  unfold tickStep
  rw [if_neg ht]
  split <;> rfl

lemma tickStep_fresh_att {timeout now : Nat} {srvTime : String} {oc : String → WriteOutcome}
    (acc : SSEState × List String × List (String × SSEEvent String)) (c : SSEClient)
    (ht : ¬ timeout < now - c.lastPing) :
    (tickStep timeout now srvTime oc acc c).2.2 =
      acc.2.2 ++ [(c.id, pingEvent now srvTime)] := by
  unfold tickStep
  rw [if_neg ht]
  split <;> rfl

lemma tickStep_fresh_fail {timeout now : Nat} {srvTime : String} {oc : String → WriteOutcome}
    (acc : SSEState × List String × List (String × SSEEvent String)) (c cFound : SSEClient)
    (ht : ¬ timeout < now - c.lastPing) (hf : findClient acc.1 c.id = some cFound)
    (hoc : oc c.id ≠ .ok) :
    tickStep timeout now srvTime oc acc c =
      ((removeClient acc.1 false c.id).1, acc.2.1 ++ [c.id],
        acc.2.2 ++ [(c.id, pingEvent now srvTime)]) := by
  unfold tickStep
  rw [if_neg ht,
    sendToClient_of_found_fail acc.1 c.id (pingEvent now srvTime) (oc c.id) false now
      cFound hf hoc]
  simp

lemma tickStep_stale_mono {timeout now : Nat} {srvTime : String} {oc : String → WriteOutcome}
    (acc : SSEState × List String × List (String × SSEEvent String)) (c : SSEClient)
    (x : String) (h : x ∈ acc.2.1) :
    x ∈ (tickStep timeout now srvTime oc acc c).2.1 := by
  unfold tickStep
  split
  · exact List.mem_append_left _ h
  · split
    · exact h
    · exact List.mem_append_left _ h

lemma tickStep_att_mono {timeout now : Nat} {srvTime : String} {oc : String → WriteOutcome}
    (acc : SSEState × List String × List (String × SSEEvent String)) (c : SSEClient)
    (pr : String × SSEEvent String) (h : pr ∈ acc.2.2) :
    pr ∈ (tickStep timeout now srvTime oc acc c).2.2 := by
  unfold tickStep
  split
  · exact h
  · split
    · exact List.mem_append_left _ h
    · exact List.mem_append_left _ h

lemma tickStep_stale_ne {timeout now : Nat} {srvTime : String} {oc : String → WriteOutcome}
    (acc : SSEState × List String × List (String × SSEEvent String)) (c : SSEClient)
    (x : String) (hne : c.id ≠ x) (h : x ∉ acc.2.1) :
    x ∉ (tickStep timeout now srvTime oc acc c).2.1 := by
  unfold tickStep
  split
  · intro hx
    rcases List.mem_append.mp hx with hx | hx
    · exact h hx
    · exact hne (List.mem_singleton.mp hx).symm
  · split
    · exact h
    · intro hx
      rcases List.mem_append.mp hx with hx | hx
      · exact h hx
      · exact hne (List.mem_singleton.mp hx).symm

lemma tickStep_att_ne {timeout now : Nat} {srvTime : String} {oc : String → WriteOutcome}
    (acc : SSEState × List String × List (String × SSEEvent String)) (c : SSEClient)
    (x : String) (hne : c.id ≠ x) (h : x ∉ acc.2.2.map Prod.fst) :
    x ∉ (tickStep timeout now srvTime oc acc c).2.2.map Prod.fst := by
  unfold tickStep
  split
  · exact h
  all_goals
    split <;>
    · intro hx
      rw [List.map_append, List.mem_append] at hx
      rcases hx with hx | hx
      · exact h hx
      · exact hne (List.mem_singleton.mp hx).symm

lemma tickStep_active_not_mem {timeout now : Nat} {srvTime : String}
    {oc : String → WriteOutcome}
    (acc : SSEState × List String × List (String × SSEEvent String)) (c : SSEClient)
    (x : String) (h : x ∉ getActiveClients acc.1) :
    x ∉ getActiveClients (tickStep timeout now srvTime oc acc c).1 := by
  by_cases ht : timeout < now - c.lastPing
  · rw [tickStep_stale acc c ht]
    exact h
  · rw [tickStep_fresh_state acc c ht]
    intro hx
    exact h (mem_getActiveClients_sendToClient acc.1 c.id _ (oc c.id) false now x hx)

lemma tick_fold_findClient {timeout now : Nat} {srvTime : String}
    {oc : String → WriteOutcome} (l : List SSEClient)
    (acc : SSEState × List String × List (String × SSEEvent String)) (x : String)
    (h : ∀ p ∈ l, p.id ≠ x) :
    findClient (l.foldl (tickStep timeout now srvTime oc) acc).1 x =
      findClient acc.1 x := by
  induction l generalizing acc with
  | nil => rfl
  | cons p t ih =>
    rw [List.foldl_cons, ih _ (fun q hq => h q (List.mem_cons_of_mem p hq))]
    have hne : p.id ≠ x := h p (List.mem_cons_self p t)
    by_cases ht : timeout < now - p.lastPing
    · rw [tickStep_stale acc p ht]
    · rw [tickStep_fresh_state acc p ht]
      exact findClient_sendToClient_ne acc.1 p.id x _ (oc p.id) false now
        (fun he => hne he.symm)

lemma tick_fold_stale_mono {timeout now : Nat} {srvTime : String}
    {oc : String → WriteOutcome} (l : List SSEClient)
    (acc : SSEState × List String × List (String × SSEEvent String)) (x : String)
    (h : x ∈ acc.2.1) :
    x ∈ (l.foldl (tickStep timeout now srvTime oc) acc).2.1 := by
  induction l generalizing acc with
  | nil => exact h
  | cons p t ih =>
    rw [List.foldl_cons]
    exact ih _ (tickStep_stale_mono acc p x h)

lemma tick_fold_att_mono {timeout now : Nat} {srvTime : String}
    {oc : String → WriteOutcome} (l : List SSEClient)
    (acc : SSEState × List String × List (String × SSEEvent String))
    (pr : String × SSEEvent String) (h : pr ∈ acc.2.2) :
    pr ∈ (l.foldl (tickStep timeout now srvTime oc) acc).2.2 := by
  induction l generalizing acc with
  | nil => exact h
  | cons p t ih =>
    rw [List.foldl_cons]
    exact ih _ (tickStep_att_mono acc p pr h)

lemma tick_fold_att_ne {timeout now : Nat} {srvTime : String}
    {oc : String → WriteOutcome} (l : List SSEClient)
    (acc : SSEState × List String × List (String × SSEEvent String)) (x : String)
    (hl : ∀ p ∈ l, p.id ≠ x) (h : x ∉ acc.2.2.map Prod.fst) :
    x ∉ (l.foldl (tickStep timeout now srvTime oc) acc).2.2.map Prod.fst := by
  induction l generalizing acc with
  | nil => exact h
  | cons p t ih =>
    rw [List.foldl_cons]
    exact ih _ (fun q hq => hl q (List.mem_cons_of_mem p hq))
      (tickStep_att_ne acc p x (hl p (List.mem_cons_self p t)) h)

lemma tick_fold_active_not_mem {timeout now : Nat} {srvTime : String}
    {oc : String → WriteOutcome} (l : List SSEClient)
    (acc : SSEState × List String × List (String × SSEEvent String)) (x : String)
    (h : x ∉ getActiveClients acc.1) :
    x ∉ getActiveClients (l.foldl (tickStep timeout now srvTime oc) acc).1 := by
  induction l generalizing acc with
  | nil => exact h
  | cons p t ih =>
    rw [List.foldl_cons]
    exact ih _ (tickStep_active_not_mem acc p x h)

lemma removeStale_not_mem (ids : List String) (st : SSEState) (x : String)
    (h : x ∉ getActiveClients st) : x ∉ getActiveClients (removeStale st ids) := by
  induction ids generalizing st with
  | nil => exact h
  | cons i t ih =>
    show x ∉ getActiveClients (removeStale (removeClient st false i).1 t)
    refine ih _ (fun hx => h ?_)
    exact mem_getActiveClients_removeClient st false i x hx

lemma removeStale_removes (ids : List String) (st : SSEState) (x : String)
    (h : x ∈ ids) : x ∉ getActiveClients (removeStale st ids) := by
  induction ids generalizing st with
  | nil => cases h
  | cons i t ih =>
    show x ∉ getActiveClients (removeStale (removeClient st false i).1 t)
    rcases List.mem_cons.mp h with rfl | hxt
    · exact removeStale_not_mem t _ x (not_mem_getActiveClients_removeClient st false x)
    · exact ih _ hxt

lemma find?_id_of_mem_nodup (l : List SSEClient) (c : SSEClient)
    (hnd : (l.map (fun x => x.id)).Nodup) (hc : c ∈ l) :
    l.find? (fun x => x.id == c.id) = some c := by
  induction l with
  | nil => cases hc
  | cons a t ih =>
    rw [List.map_cons, List.nodup_cons] at hnd
    rcases List.mem_cons.mp hc with rfl | hct
    · exact List.find?_cons_of_pos _ (by simp)
    · have ha : a.id ≠ c.id := by
        intro he
        exact hnd.1 (he ▸ List.mem_map_of_mem (fun x => x.id) hct)
      rw [List.find?_cons_of_neg _ (by simp [ha])]
      exact ih hnd.2 hct

lemma findClient_of_mem_nodup (s : SSEState) (c : SSEClient)
    (hnd : (getActiveClients s).Nodup) (hc : c ∈ s.clients) :
    findClient s c.id = some c :=
  find?_id_of_mem_nodup s.clients c hnd hc

/-- C5: for every connection registered at the start of a (live) heartbeat
tick, on a registry whose ids are distinct: if `now - lastPing` exceeds the
client timeout, the connection is removed during that tick and no send is
attempted to it; otherwise a `ping` event carrying the current timestamp is
sent to it, and if that send fails (its write outcome is not `ok`) the
connection is removed within the same tick. -/
theorem heartbeatTick_stale_and_ping (s : SSEState) (now : Nat) (srvTime : String)
    (oc : String → WriteOutcome) (c : SSEClient)
    (hnd : (getActiveClients s).Nodup) (hmem : c ∈ s.clients)
    (hlive : s.isShuttingDown = false) :
    (s.config.clientTimeout < now - c.lastPing →
      c.id ∉ (heartbeatTick s now srvTime oc).2.map Prod.fst ∧
      c.id ∉ getActiveClients (heartbeatTick s now srvTime oc).1) ∧
    (¬ s.config.clientTimeout < now - c.lastPing →
      (c.id, pingEvent now srvTime) ∈ (heartbeatTick s now srvTime oc).2 ∧
      (oc c.id ≠ .ok →
        c.id ∉ getActiveClients (heartbeatTick s now srvTime oc).1)) := by
  obtain ⟨pre, post, hsplit⟩ := List.append_of_mem hmem
  have hfind : findClient s c.id = some c := findClient_of_mem_nodup s c hnd hmem
  have hnd2 := hnd
  rw [getActiveClients, hsplit, List.map_append, List.nodup_append] at hnd2
  obtain ⟨hndPre, hndRest, hdisj⟩ := hnd2
  rw [List.map_cons, List.nodup_cons] at hndRest
  have hpre : ∀ p ∈ pre, p.id ≠ c.id := by
    intro p hp he
    exact hdisj (List.mem_map_of_mem (fun x => x.id) hp)
      (by rw [List.map_cons]; exact he ▸ List.mem_cons_self c.id _)
  have hpost : ∀ p ∈ post, p.id ≠ c.id := by
    intro p hp he
    exact hndRest.1 (he ▸ List.mem_map_of_mem (fun x => x.id) hp)
  rw [heartbeatTick_eq s now srvTime oc hlive]
  rw [hsplit, List.foldl_append, List.foldl_cons]
  set A := pre.foldl (tickStep s.config.clientTimeout now srvTime oc) (s, [], []) with hA
  have hfindA : findClient A.1 c.id = some c := by
    rw [hA, tick_fold_findClient pre (s, [], []) c.id hpre]
    exact hfind
  constructor
  · intro ht
    rw [tickStep_stale A c ht]
    constructor
    · refine tick_fold_att_ne post _ c.id hpost ?_
      show c.id ∉ A.2.2.map Prod.fst
      rw [hA]
      refine tick_fold_att_ne pre _ c.id hpre ?_
      simp
    · refine removeStale_removes _ _ c.id ?_
      refine tick_fold_stale_mono post _ c.id ?_
      exact List.mem_append_right _ (List.mem_singleton.mpr rfl)
  · intro ht
    constructor
    · refine tick_fold_att_mono post _ _ ?_
      rw [tickStep_fresh_att A c ht]
      exact List.mem_append_right _ (List.mem_singleton.mpr rfl)
    · intro hfail
      refine removeStale_not_mem _ _ c.id ?_
      refine tick_fold_active_not_mem post _ c.id ?_
      rw [tickStep_fresh_fail A c c ht hfindA hfail]
      exact not_mem_getActiveClients_removeClient A.1 false c.id

def stateStale : SSEState :=
  { clients := [{ id := "a", userId := none, lastPing := 0, connectedAt := 0 }],
    heartbeatActive := true, isShuttingDown := false, config := {} }

theorem heartbeatTick_stale_and_ping_witness :
    ((getActiveClients stateStale).Nodup) ∧
    ({ id := "a", userId := none, lastPing := 0, connectedAt := 0 } ∈
      stateStale.clients) ∧
    (stateStale.isShuttingDown = false) ∧
    (stateStale.config.clientTimeout < 100000 - 0) ∧
    ("a" ∉ (heartbeatTick stateStale 100000 "t" (fun _ => .ok)).2.map Prod.fst ∧
      "a" ∉ getActiveClients (heartbeatTick stateStale 100000 "t" (fun _ => .ok)).1) :=
  ⟨by decide, by decide, rfl, by decide,
    (heartbeatTick_stale_and_ping stateStale 100000 "t" (fun _ => .ok)
      { id := "a", userId := none, lastPing := 0, connectedAt := 0 }
      (by decide) (by decide) rfl).1 (by decide)⟩

/-! ## Shutdown (`SSEService.cleanup` and the graceful-shutdown handler) -/

/-- The `server-shutdown` notification sent during cleanup. -/
def shutdownEvent (now : Nat) : SSEEvent String :=
  { id := none, event := "server-shutdown",
    data := "\x7b\"message\":\"Server is shutting down\",\"timestamp\":" ++
      toString now ++ "\x7d",
    retry := none }

/-- Processing of one snapshot id in `cleanup`: best-effort send of the
shutdown notification (failures swallowed), then removal. -/
def cleanupStep (oc : String → WriteOutcome) (now : Nat) (st : SSEState)
    (cid : String) : SSEState :=
  (removeClient (sendToClient st cid (shutdownEvent now) (oc cid) false now).1
    false cid).1

/-- `SSEService.cleanup`: cancel the heartbeat timer, then for every id in a
snapshot of the registry attempt a `server-shutdown` send and remove the
client.  `cleanup` itself does not touch `isShuttingDown`; only the
graceful-shutdown signal handler sets that flag. -/
def cleanup (s : SSEState) (oc : String → WriteOutcome) (now : Nat) : SSEState :=
  (getActiveClients s).foldl (cleanupStep oc now) { s with heartbeatActive := false }

/-- The `shutdown` closure installed by `setupGracefulShutdown` (run on
SIGTERM/SIGINT): set `isShuttingDown = true`, then run `cleanup`. -/
def gracefulShutdown (s : SSEState) (oc : String → WriteOutcome) (now : Nat) : SSEState :=
  cleanup { s with isShuttingDown := true } oc now

lemma mem_cleanupStep (oc : String → WriteOutcome) (now : Nat) (st : SSEState)
    (cid x : String) (h : x ∈ getActiveClients (cleanupStep oc now st cid)) :
    x ∈ getActiveClients st := by
  unfold cleanupStep at h
  exact mem_getActiveClients_sendToClient st cid _ (oc cid) false now x
    (mem_getActiveClients_removeClient _ false cid x h)

lemma cleanFold_subset (oc : String → WriteOutcome) (now : Nat) (ids : List String)
    (st : SSEState) (x : String)
    (h : x ∈ getActiveClients (ids.foldl (cleanupStep oc now) st)) :
    x ∈ getActiveClients st := by
  induction ids generalizing st with
  | nil => exact h
  | cons i t ih => exact mem_cleanupStep oc now st i x (ih _ h)

lemma cleanFold_not_mem (oc : String → WriteOutcome) (now : Nat) (ids : List String)
    (st : SSEState) (x : String) (h : x ∉ getActiveClients st) :
    x ∉ getActiveClients (ids.foldl (cleanupStep oc now) st) :=
  fun hx => h (cleanFold_subset oc now ids st x hx)

lemma cleanFold_removes (oc : String → WriteOutcome) (now : Nat) (ids : List String)
    (st : SSEState) (x : String) (h : x ∈ ids) :
    x ∉ getActiveClients (ids.foldl (cleanupStep oc now) st) := by
  induction ids generalizing st with
  | nil => cases h
  | cons i t ih =>
    rw [List.foldl_cons]
    rcases List.mem_cons.mp h with rfl | hxt
    · refine cleanFold_not_mem oc now t _ x ?_
      unfold cleanupStep
      exact not_mem_getActiveClients_removeClient _ false x
    · exact ih _ hxt

lemma cleanup_active_nil (s : SSEState) (oc : String → WriteOutcome) (now : Nat) :
    getActiveClients (cleanup s oc now) = [] := by
  rw [List.eq_nil_iff_forall_not_mem]
  intro x hx
  unfold cleanup at hx
  have hx0 : x ∈ getActiveClients s :=
    cleanFold_subset oc now (getActiveClients s)
      { s with heartbeatActive := false } x hx
  exact cleanFold_removes oc now (getActiveClients s)
    { s with heartbeatActive := false } x hx0 hx

lemma flags_cleanupStep (oc : String → WriteOutcome) (now : Nat) (st : SSEState)
    (cid : String) :
    (cleanupStep oc now st cid).isShuttingDown = st.isShuttingDown ∧
    (cleanupStep oc now st cid).heartbeatActive = st.heartbeatActive := by
  unfold cleanupStep
  obtain ⟨-, h1, h2⟩ := config_removeClient
    (sendToClient st cid (shutdownEvent now) (oc cid) false now).1 false cid
  obtain ⟨-, h3, h4⟩ := config_sendToClient st cid (shutdownEvent now) (oc cid) false now
  exact ⟨h1.trans h3, h2.trans h4⟩

lemma flags_cleanFold (oc : String → WriteOutcome) (now : Nat) (ids : List String)
    (st : SSEState) :
    (ids.foldl (cleanupStep oc now) st).isShuttingDown = st.isShuttingDown ∧
    (ids.foldl (cleanupStep oc now) st).heartbeatActive = st.heartbeatActive := by
  induction ids generalizing st with
  | nil => exact ⟨rfl, rfl⟩
  | cons i t ih =>
    rw [List.foldl_cons]
    obtain ⟨h1, h2⟩ := ih (cleanupStep oc now st i)
    obtain ⟨h3, h4⟩ := flags_cleanupStep oc now st i
    exact ⟨h1.trans h3, h2.trans h4⟩

/-- C6 counterexample: `cleanup` alone does not flip `isShuttingDown`, so on
a concrete registry holding one client, a `register` call made after
`cleanup` on the same instance succeeds instead of failing with the
shutting-down (`Unavailable`) error. -/
theorem cleanup_then_addClient_succeeds :
    (addClient (cleanup stateOne (fun _ => .ok) 0) "b" none 1).2 = .ok "b" := rfl

/-- C6 amended: after the graceful-shutdown handler has run (it sets
`isShuttingDown` and then runs `cleanup`, which best-effort-notifies and
removes every connection and cancels the heartbeat timer), every subsequent
`addClient` on the same instance fails fast with the shutting-down error
and leaves the state unchanged. -/
theorem gracefulShutdown_register_unavailable (s : SSEState)
    (oc : String → WriteOutcome) (now : Nat) (fid : String) (uid : Option String)
    (t : Nat) :
    getActiveClients (gracefulShutdown s oc now) = [] ∧
    (gracefulShutdown s oc now).heartbeatActive = false ∧
    addClient (gracefulShutdown s oc now) fid uid t =
      (gracefulShutdown s oc now, .error .shuttingDown) := by
  have hsd : (gracefulShutdown s oc now).isShuttingDown = true := by
    unfold gracefulShutdown cleanup
    exact (flags_cleanFold oc now _ _).1
  refine ⟨cleanup_active_nil _ oc now, ?_, ?_⟩
  · unfold gracefulShutdown cleanup
    exact (flags_cleanFold oc now _ _).2
  · simp [addClient, hsd]

/-! ## Sequences of register/remove calls (for the registry invariant) -/

/-- One call in a register/remove trace.  `register` carries the fresh id
produced by `randomUUID()` for that call. -/
inductive RegOp where
  | register (freshId : String) (userId : Option String) (now : Nat)
  | remove (id : String) (closeThrows : Bool)
deriving Repr, DecidableEq

/-- Run one trace call.  Alongside the registry state we track the spec-side
set of ids: ids returned by successful `register` calls that have not since
been removed. -/
def opStep (acc : SSEState × List String) (op : RegOp) : SSEState × List String :=
  match op with
  | .register fid uid now =>
    match addClient acc.1 fid uid now with
    | (s1, .ok cid) => (s1, acc.2 ++ [cid])
    | (s1, .error _) => (s1, acc.2)
  | .remove cid ct =>
    ((removeClient acc.1 ct cid).1, acc.2.filter (fun x => !(x == cid)))

/-- Run a trace from a freshly constructed registry. -/
def runOps (cfg : SSEServiceConfig) (ops : List RegOp) : SSEState × List String :=
  ops.foldl opStep (initialState cfg, [])

/-- The fresh ids supplied to the `register` calls of a trace.  `randomUUID`
never repeats, modelled as a `Nodup` hypothesis on this list. -/
def regIds (ops : List RegOp) : List String :=
  ops.filterMap (fun op =>
    match op with
    | .register fid _ _ => some fid
    | .remove _ _ => none)

lemma regIds_register (fid : String) (uid : Option String) (now : Nat)
    (rest : List RegOp) :
    regIds (.register fid uid now :: rest) = fid :: regIds rest := rfl

lemma regIds_remove (cid : String) (ct : Bool) (rest : List RegOp) :
    regIds (.remove cid ct :: rest) = regIds rest := rfl

lemma opStep_register_shutdown (acc : SSEState × List String) (fid : String)
    (uid : Option String) (now : Nat) (h : acc.1.isShuttingDown = true) :
    opStep acc (.register fid uid now) = (acc.1, acc.2) := by
  simp [opStep, addClient, h]

lemma opStep_register_capacity (acc : SSEState × List String) (fid : String)
    (uid : Option String) (now : Nat) (h1 : acc.1.isShuttingDown = false)
    (h2 : acc.1.config.maxClients ≤ acc.1.clients.length) :
    opStep acc (.register fid uid now) = (acc.1, acc.2) := by
  simp [opStep, addClient, h1, h2]

lemma opStep_register_ok (acc : SSEState × List String) (fid : String)
    (uid : Option String) (now : Nat) (h1 : acc.1.isShuttingDown = false)
    (h2 : ¬ acc.1.config.maxClients ≤ acc.1.clients.length) :
    opStep acc (.register fid uid now) =
      ({ acc.1 with clients := mapSet acc.1.clients (mkClient fid uid now) },
        acc.2 ++ [fid]) := by
  simp [opStep, addClient, h1, h2]

lemma mapSet_of_fresh (l : List SSEClient) (c : SSEClient)
    (h : ∀ p ∈ l, p.id ≠ c.id) : mapSet l c = l ++ [c] := by
  unfold mapSet
  rw [if_neg]
  intro hx
  rcases List.any_eq_true.mp hx with ⟨p, hp, hpc⟩
  exact h p hp (by simpa using hpc)

lemma runOps_inv (ops : List RegOp) (acc : SSEState × List String)
    (hinv : getActiveClients acc.1 = acc.2) (hnd : acc.2.Nodup)
    (hfresh : ∀ x ∈ getActiveClients acc.1, x ∉ regIds ops)
    (hops : (regIds ops).Nodup) :
    getActiveClients (ops.foldl opStep acc).1 = (ops.foldl opStep acc).2 ∧
    ((ops.foldl opStep acc).2).Nodup := by
  induction ops generalizing acc with
  | nil => exact ⟨hinv, hnd⟩
  | cons op rest ih =>
    rw [List.foldl_cons]
    cases op with
    | register fid uid now =>
      rw [regIds_register] at hfresh hops
      rw [List.nodup_cons] at hops
      by_cases hsd : acc.1.isShuttingDown = true
      · rw [opStep_register_shutdown acc fid uid now hsd]
        exact ih _ hinv hnd
          (fun x hx => fun hr => hfresh x hx (List.mem_cons_of_mem fid hr)) hops.2
      · have hsd' : acc.1.isShuttingDown = false := by
          cases h : acc.1.isShuttingDown
          · rfl
          · exact absurd h hsd
        by_cases hcap : acc.1.config.maxClients ≤ acc.1.clients.length
        · rw [opStep_register_capacity acc fid uid now hsd' hcap]
          exact ih _ hinv hnd
            (fun x hx => fun hr => hfresh x hx (List.mem_cons_of_mem fid hr)) hops.2
        · rw [opStep_register_ok acc fid uid now hsd' hcap]
          have hfid : fid ∉ getActiveClients acc.1 := by
            intro hmem
            exact hfresh fid hmem (List.mem_cons_self fid _)
          have hfl : ∀ p ∈ acc.1.clients, p.id ≠ fid := by
            intro p hp he
            exact hfid (he ▸ List.mem_map_of_mem (fun x => x.id) hp)
          have hmap := mapSet_of_fresh acc.1.clients (mkClient fid uid now) hfl
          rw [hmap]
          have hact : getActiveClients
              { acc.1 with clients := acc.1.clients ++ [mkClient fid uid now] } =
              getActiveClients acc.1 ++ [fid] := by
            simp [getActiveClients, mkClient]
          refine ih _ ?_ ?_ ?_ hops.2
          · rw [hact, hinv]
          · rw [List.nodup_append]
            refine ⟨hnd, List.nodup_singleton fid, ?_⟩
            intro x hx hx1
            rw [List.mem_singleton.mp hx1] at hx
            exact hfid (hinv ▸ hx)
          · intro x hx
            rw [hact] at hx
            rcases List.mem_append.mp hx with hx | hx
            · exact fun hr => hfresh x hx (List.mem_cons_of_mem fid hr)
            · rw [List.mem_singleton.mp hx]
              exact hops.1
    | remove cid ct =>
      rw [regIds_remove] at hfresh hops
      show getActiveClients (rest.foldl opStep _).1 = _ ∧ _
      refine ih ((removeClient acc.1 ct cid).1, acc.2.filter (fun x => !(x == cid)))
        ?_ (hnd.filter _) ?_ hops
      · rw [getActiveClients_removeClient, hinv]
      · intro x hx
        exact hfresh x (mem_getActiveClients_removeClient acc.1 ct cid x hx)

/-- C7: for every finite sequence of register/remove calls starting from an
empty registry (with the `randomUUID`-supplied fresh ids pairwise distinct),
the ids returned by `getActiveClients` contain no duplicates and equal
exactly the ids returned by successful `register` calls that have not since
been removed. -/
theorem runOps_listIds_exact (cfg : SSEServiceConfig) (ops : List RegOp)
    (h : (regIds ops).Nodup) :
    getActiveClients (runOps cfg ops).1 = (runOps cfg ops).2 ∧
    (getActiveClients (runOps cfg ops).1).Nodup := by
  obtain ⟨h1, h2⟩ := runOps_inv ops (initialState cfg, []) rfl List.nodup_nil
    (by intro x hx; cases hx) h
  exact ⟨h1, h1 ▸ h2⟩

theorem runOps_listIds_exact_witness :
    ((regIds [RegOp.register "a" none 0, RegOp.register "b" (some "u") 1,
        RegOp.remove "a" false]).Nodup) ∧
    (getActiveClients (runOps {} [RegOp.register "a" none 0,
        RegOp.register "b" (some "u") 1, RegOp.remove "a" false]).1 =
      (runOps {} [RegOp.register "a" none 0, RegOp.register "b" (some "u") 1,
        RegOp.remove "a" false]).2 ∧
      (getActiveClients (runOps {} [RegOp.register "a" none 0,
        RegOp.register "b" (some "u") 1, RegOp.remove "a" false]).1).Nodup) :=
  ⟨by decide,
    runOps_listIds_exact {} [RegOp.register "a" none 0,
      RegOp.register "b" (some "u") 1, RegOp.remove "a" false] (by decide)⟩

/-! ## User-targeted delivery and statistics -/

/-- `SSEService.getClientsByUser`: loop pushing the ids of clients whose
`userId` strictly equals (`===`) the argument. -/
def getClientsByUser (s : SSEState) (userId : String) : List String :=
  s.clients.foldl (fun acc c => if c.userId == some userId then acc ++ [c.id] else acc) []

/-- One iteration of the `sendToUser` loop: for a client whose `userId`
strictly equals the target, call `sendToClient` (written out by substituting
the call) and increment the count if it returned true.  The accumulator
carries the evolving state, `sentCount`, and the attempted sends
(client id, send succeeded). -/
def sendToUserStep (userId : String) (e : SSEEvent String)
    (outcomes : String → WriteOutcome) (now : Nat)
    (acc : SSEState × Nat × List (String × Bool)) (c : SSEClient) :
    SSEState × Nat × List (String × Bool) :=
  if c.userId == some userId then
    ((sendToClient acc.1 c.id e (outcomes c.id) false now).1,
      acc.2.1 +
        (if (sendToClient acc.1 c.id e (outcomes c.id) false now).2 then 1 else 0),
      acc.2.2 ++ [(c.id, (sendToClient acc.1 c.id e (outcomes c.id) false now).2)])
  else acc

/-- `SSEService.sendToUser`: iterate the clients, sending to each one whose
recorded `userId` strictly equals the argument, and return the number of
successful sends (with the evolving state and the attempt log). -/
def sendToUser (s : SSEState) (userId : String) (e : SSEEvent String)
    (outcomes : String → WriteOutcome) (now : Nat) :
    SSEState × Nat × List (String × Bool) :=
  s.clients.foldl (sendToUserStep userId e outcomes now) (s, 0, [])

lemma pushFold_eq (l : List SSEClient) (uid : String) (acc : List String) :
    l.foldl (fun a c => if c.userId == some uid then a ++ [c.id] else a) acc =
      acc ++ (l.filter (fun c => c.userId == some uid)).map (fun c => c.id) := by
  induction l generalizing acc with
  | nil => simp
  | cons c t ih =>
    rw [List.foldl_cons]
    by_cases h : c.userId = some uid
    · rw [if_pos (by simp [h]), List.filter_cons_of_pos (by simp [h]), List.map_cons,
        ih, List.append_assoc, List.singleton_append]
    · rw [if_neg (by simp [h]), List.filter_cons_of_neg (by simp [h]), ih]

lemma getClientsByUser_eq (s : SSEState) (uid : String) :
    getClientsByUser s uid =
      (s.clients.filter (fun c => c.userId == some uid)).map (fun c => c.id) := by
  unfold getClientsByUser
  rw [pushFold_eq]
  rfl

lemma sendToUser_fold_att (l : List SSEClient) (uid : String) (e : SSEEvent String)
    (oc : String → WriteOutcome) (now : Nat)
    (acc : SSEState × Nat × List (String × Bool)) :
    ((l.foldl (sendToUserStep uid e oc now) acc).2.2).map Prod.fst =
      acc.2.2.map Prod.fst ++
        (l.filter (fun c => c.userId == some uid)).map (fun c => c.id) := by
  induction l generalizing acc with
  | nil => simp
  | cons c t ih =>
    rw [List.foldl_cons]
    by_cases h : c.userId = some uid
    · have hstep : (sendToUserStep uid e oc now acc c).2.2 =
          acc.2.2 ++ [(c.id, (sendToClient acc.1 c.id e (oc c.id) false now).2)] := by
        unfold sendToUserStep
        rw [if_pos (by simp [h])]
      rw [ih, hstep, List.filter_cons_of_pos (by simp [h]), List.map_cons,
        List.map_append, List.append_assoc]
      rfl
    · have hstep : sendToUserStep uid e oc now acc c = acc := by
        unfold sendToUserStep
        rw [if_neg (by simp [h])]
      rw [ih, hstep, List.filter_cons_of_neg (by simp [h])]

lemma sendToUser_fold_count (l : List SSEClient) (uid : String) (e : SSEEvent String)
    (oc : String → WriteOutcome) (now : Nat)
    (acc : SSEState × Nat × List (String × Bool))
    (h : acc.2.1 = (acc.2.2.filter (fun pr => pr.2)).length) :
    (l.foldl (sendToUserStep uid e oc now) acc).2.1 =
      (((l.foldl (sendToUserStep uid e oc now) acc).2.2).filter
        (fun pr => pr.2)).length := by
  induction l generalizing acc with
  | nil => exact h
  | cons c t ih =>
    rw [List.foldl_cons]
    refine ih _ ?_
    unfold sendToUserStep
    by_cases hm : c.userId = some uid
    · rw [if_pos (by simp [hm])]
      by_cases hb : (sendToClient acc.1 c.id e (oc c.id) false now).2 = true
      · simp [hb, List.filter_append, h]
      · rw [Bool.not_eq_true] at hb
        simp [hb, List.filter_append, h]
    · rw [if_neg (by simp [hm])]
      exact h

/-- C8: `sendToUser` attempts delivery exactly to the connections whose
recorded `userId` strictly equals the argument (in particular never to an
anonymous connection, on a registry with distinct ids), and returns the
number of those sends that succeeded; `getClientsByUser` returns exactly
the ids of connections whose `userId` equals the argument. -/
theorem sendToUser_targets_exact (s : SSEState) (uid : String) (e : SSEEvent String)
    (oc : String → WriteOutcome) (now : Nat) :
    (sendToUser s uid e oc now).2.2.map Prod.fst = getClientsByUser s uid ∧
    getClientsByUser s uid =
      (s.clients.filter (fun c => c.userId == some uid)).map (fun c => c.id) ∧
    (sendToUser s uid e oc now).2.1 =
      (((sendToUser s uid e oc now).2.2).filter (fun pr => pr.2)).length ∧
    (∀ c ∈ s.clients, c.userId = none → (getActiveClients s).Nodup →
      c.id ∉ (sendToUser s uid e oc now).2.2.map Prod.fst) := by
  have hatt : (sendToUser s uid e oc now).2.2.map Prod.fst =
      (s.clients.filter (fun c => c.userId == some uid)).map (fun c => c.id) := by
    unfold sendToUser
    rw [sendToUser_fold_att]
    rfl
  refine ⟨by rw [hatt, getClientsByUser_eq], getClientsByUser_eq s uid, ?_, ?_⟩
  · unfold sendToUser
    exact sendToUser_fold_count s.clients uid e oc now (s, 0, []) rfl
  · intro c hc hanon hnd hmem
    rw [hatt] at hmem
    rcases List.mem_map.mp hmem with ⟨cMatch, hcm, hid⟩
    have hcm2 := List.mem_filter.mp hcm
    have hcu : cMatch.userId = some uid := by simpa using hcm2.2
    have heq : cMatch = c :=
      List.inj_on_of_nodup_map hnd hcm2.1 hc hid
    rw [heq, hanon] at hcu
    cases hcu

def stateAnon : SSEState :=
  { clients := [{ id := "a", userId := none, lastPing := 0, connectedAt := 0 }],
    heartbeatActive := true, isShuttingDown := false, config := {} }

theorem sendToUser_targets_exact_witness :
    ({ id := "a", userId := none, lastPing := 0, connectedAt := 0 } ∈
      stateAnon.clients) ∧
    ((getActiveClients stateAnon).Nodup) ∧
    ("a" ∉ (sendToUser stateAnon "u" eventW (fun _ => .ok) 3).2.2.map Prod.fst) :=
  ⟨by decide, by decide,
    (sendToUser_targets_exact stateAnon "u" eventW (fun _ => .ok) 3).2.2.2
      { id := "a", userId := none, lastPing := 0, connectedAt := 0 }
      (by decide) rfl (by decide)⟩

/-- The object returned by `SSEService.getStats`. -/
structure SSEStats where
  totalClients : Nat
  authenticatedClients : Nat
  anonymousClients : Nat
  averageConnectionTime : Nat
  oldestConnection : Nat
deriving Repr, DecidableEq

/-- `Math.round(num/den)` on a non-negative exact ratio: round half up. -/
def jsRound (num den : Nat) : Nat := (2 * num + den) / (2 * den)

/-- `Math.min(...connectedAts)` over a non-empty snapshot. -/
def minConnectedAt : List SSEClient → Nat
  | [] => 0
  | c :: rest => rest.foldl (fun m x => min m x.connectedAt) c.connectedAt

/-- `SSEService.getStats`: counts by JS truthiness of `userId`; average and
oldest connection ages (ms summed, divided, rounded to seconds) are guarded
by `connections.length > 0`.  `now` is taken at or after each `connectedAt`
(ages are `Nat` subtractions). -/
def getStats (s : SSEState) (now : Nat) : SSEStats :=
  let n := s.clients.length
  let avg := if 0 < n then
    jsRound (s.clients.foldl (fun sum c => sum + (now - c.connectedAt)) 0) (n * 1000)
    else 0
  let oldest := if 0 < n then jsRound (now - minConnectedAt s.clients) 1000 else 0
  { totalClients := n,
    authenticatedClients := (s.clients.filter (fun c => truthyStr c.userId)).length,
    anonymousClients := (s.clients.filter (fun c => !truthyStr c.userId)).length,
    averageConnectionTime := avg,
    oldestConnection := oldest }

/-- C9: on an empty registry, `getStats` returns a total of 0, an average
connection age of 0 and an oldest connection age of 0 — both age branches
are guarded by the `connections.length > 0` test, so no division on an
empty snapshot is performed. -/
theorem getStats_empty_registry (cfg : SSEServiceConfig) (hb sd : Bool) (now : Nat) :
    getStats { clients := [], heartbeatActive := hb, isShuttingDown := sd, config := cfg } now =
      { totalClients := 0, authenticatedClients := 0, anonymousClients := 0,
        averageConnectionTime := 0, oldestConnection := 0 } := rfl

/-- C10: a registered connection whose `userId` is the empty string is
classified as anonymous by `getStats` (truthiness: counted in
`anonymousClients`, excluded from `authenticatedClients`), yet
`getClientsByUser ""` and `sendToUser ""` still target exactly that
connection (strict string equality), so the authenticated count and the set
of user-targetable connections disagree. -/
theorem emptyString_userId_stats_vs_targeting (s : SSEState) (now : Nat)
    (e : SSEEvent String) (oc : String → WriteOutcome) (c : SSEClient)
    (hmem : c ∈ s.clients) (hu : c.userId = some "") :
    (getStats s now).authenticatedClients =
      (s.clients.filter (fun x => truthyStr x.userId)).length ∧
    (getStats s now).anonymousClients =
      (s.clients.filter (fun x => !truthyStr x.userId)).length ∧
    c ∈ s.clients.filter (fun x => !truthyStr x.userId) ∧
    c ∉ s.clients.filter (fun x => truthyStr x.userId) ∧
    c.id ∈ getClientsByUser s "" ∧
    c.id ∈ (sendToUser s "" e oc now).2.2.map Prod.fst := by
  have htr : truthyStr c.userId = false := by rw [hu]; rfl
  refine ⟨rfl, rfl, ?_, ?_, ?_, ?_⟩
  · exact List.mem_filter.mpr ⟨hmem, by simp [htr]⟩
  · intro hmem2
    have hcontra := (List.mem_filter.mp hmem2).2
    rw [htr] at hcontra
    cases hcontra
  · rw [getClientsByUser_eq]
    exact List.mem_map.mpr ⟨c, List.mem_filter.mpr ⟨hmem, by simp [hu]⟩, rfl⟩
  · have hatt : (sendToUser s "" e oc now).2.2.map Prod.fst =
        (s.clients.filter (fun x => x.userId == some "")).map (fun x => x.id) := by
      unfold sendToUser
      rw [sendToUser_fold_att]
      rfl
    rw [hatt]
    exact List.mem_map.mpr ⟨c, List.mem_filter.mpr ⟨hmem, by simp [hu]⟩, rfl⟩

def stateEmptyUser : SSEState :=
  { clients := [{ id := "a", userId := some "", lastPing := 0, connectedAt := 0 }],
    heartbeatActive := true, isShuttingDown := false, config := {} }

theorem emptyString_userId_stats_vs_targeting_witness :
    ({ id := "a", userId := some "", lastPing := 0, connectedAt := 0 } ∈
      stateEmptyUser.clients) ∧
    (({ id := "a", userId := some "", lastPing := 0,
        connectedAt := 0 } : SSEClient).userId = some "") ∧
    ("a" ∈ getClientsByUser stateEmptyUser "" ∧
      "a" ∈ (sendToUser stateEmptyUser "" eventW (fun _ => .ok) 0).2.2.map Prod.fst) :=
  ⟨by decide, rfl,
    (emptyString_userId_stats_vs_targeting stateEmptyUser 0 eventW (fun _ => .ok)
        { id := "a", userId := some "", lastPing := 0, connectedAt := 0 }
        (by decide) rfl).2.2.2.2.1,
    (emptyString_userId_stats_vs_targeting stateEmptyUser 0 eventW (fun _ => .ok)
        { id := "a", userId := some "", lastPing := 0, connectedAt := 0 }
        (by decide) rfl).2.2.2.2.2⟩

end SSEModel
